import Mathlib

/-!
VTIL architecture: register descriptors and instruction descriptors

A shallow embedding of `arch/register_desc.hpp`, `arch/instruction_desc.cpp`
and `arch/instruction_set.hpp`, followed by the properties established
about them.

Conventions of the embedding

* `uint8_t flags` and `size_t local_id` are natural numbers.
* `bitcnt_t` is declared in the math header, which is not among the
  sources; it is the project's signed bit-count type (`int`).  Its values
  are embedded as integers (`Int`), so that no value the type can hold is
  excluded by the embedding; the sum `bit_count + bit_offset` is the exact
  integer sum, as it is in C++ for every operand pair whose sum fits `int`.
* A failed `fassert` aborts the program: a constructor returns `none`.
* `std::string` is `String`, `std::to_string` is the decimal rendering
  `toString`.
-/

namespace vtil

/-! ## Register flags (`enum register_flag : uint8_t`) -/

def register_virtual : Nat := 0
def register_physical : Nat := 1 <<< 0
def register_local : Nat := 1 <<< 1
def register_flags : Nat := 1 <<< 2
def register_stack_pointer : Nat := 1 <<< 3
def register_volatile : Nat := 1 <<< 4
def register_readonly : Nat := 1 <<< 5

/-- The default naming strategy `register_namer<is_physical>`: the two
position arguments are received and ignored. -/
def register_namer (is_physical : Bool) (id : Nat) (_bit_offset _bit_count : Int)
    (positional_suffix : String) : String :=
  (if is_physical then "r" else "vr") ++ toString id ++ positional_suffix

namespace math

/-- Modelled from the spec: `math::fill`, a function of the math header,
which is not among the sources.  The spec gives a register's mask as
`fill(bit_count) << bit_offset`, a 64-bit value spanning
`[bit_offset, bit_offset+bit_count)`: the `bit_count` low bits of a 64-bit
word, shifted left by `bit_offset` and truncated to 64 bits.  The spec says
nothing of counts or offsets below zero; they are read as zero here. -/
def fill (bit_count bit_offset : Int) : Nat :=
  (((2 ^ bit_count.toNat - 1) % 2 ^ 64) <<< bit_offset.toNat) % 2 ^ 64

/-- The number of set bits among the 64 bit positions of a word: the
measure the mask properties are stated with. -/
def set_bit_count (x : Nat) : Nat := (List.range 64).countP (fun i => x.testBit i)

end math

/-- The type `register_desc`: its four data members. -/
structure register_desc where
  flags : Nat
  local_id : Nat
  bit_count : Int
  bit_offset : Int
  deriving DecidableEq, Repr

namespace register_desc

def is_flags (r : register_desc) : Bool := r.flags &&& register_flags != 0
def is_local (r : register_desc) : Bool := r.flags &&& register_local != 0
def is_physical (r : register_desc) : Bool := r.flags &&& register_physical != 0
def is_volatile (r : register_desc) : Bool := r.flags &&& register_volatile != 0
def is_read_only (r : register_desc) : Bool := r.flags &&& register_readonly != 0
def is_stack_pointer (r : register_desc) : Bool := r.flags &&& register_stack_pointer != 0

/-- The member `is_valid()`, statement by statement. -/
def is_valid (r : register_desc) : Bool :=
  if r.bit_count == 0 || decide (r.bit_count + r.bit_offset > 64) then false
  else if (r.is_stack_pointer || r.is_flags)
      && (r.is_volatile || r.is_read_only || !r.is_physical) then false
  else !r.is_physical || !r.is_local

/-- The four-argument constructor: the members are initialised from the
arguments and `fassert( is_valid() )` decides whether an instance exists. -/
def construct (flags id : Nat) (bit_count bit_offset : Int) : Option register_desc :=
  let r : register_desc := ⟨flags, id, bit_count, bit_offset⟩
  if r.is_valid then some r else none

/-- The member `get_mask()`: `math::fill( bit_count, bit_offset )`. -/
def get_mask (r : register_desc) : Nat := math.fill r.bit_count r.bit_offset

/-- The member `overlaps( o )`: a nonzero intersection of the two masks
converts to `true`. -/
def overlaps (r o : register_desc) : Bool :=
  if r.local_id != o.local_id || r.flags != o.flags then false
  else r.get_mask &&& o.get_mask != 0

/-- The local `prefix` of `to_string()` once both of its assignments ran. -/
def to_string_pfx (r : register_desc) : String :=
  let p0 := ""
  let p1 := if r.flags &&& register_volatile != 0 then "?" else p0
  if r.flags &&& register_readonly != 0 then p1 ++ "&&" else p1

/-- The local `suffix` of `to_string()` once both of its assignments ran:
the second assignment overwrites the first. -/
def to_string_sfx (r : register_desc) : String :=
  let s0 := ""
  let s1 := if r.bit_offset != 0 then "@" ++ toString r.bit_offset else s0
  if r.bit_count != 64 then ":" ++ toString r.bit_count else s1

/-- The member `to_string()`.  The last two branches instantiate the namer
exactly as the source does: `register_namer<false>` on the physical branch,
`register_namer<true>` on the other, with the arguments in the order
`( local_id, bit_count, bit_offset, suffix )`. -/
def to_string (r : register_desc) : String :=
  if r.flags &&& register_flags != 0 then
    r.to_string_pfx ++ "$flags" ++ r.to_string_sfx
  else if r.flags &&& register_stack_pointer != 0 then
    r.to_string_pfx ++ "$sp" ++ r.to_string_sfx
  else if r.flags &&& register_local != 0 then
    r.to_string_pfx ++ "t" ++ toString r.local_id ++ r.to_string_sfx
  else if r.flags &&& register_physical != 0 then
    r.to_string_pfx ++ register_namer false r.local_id r.bit_count r.bit_offset r.to_string_sfx
  else
    r.to_string_pfx ++ register_namer true r.local_id r.bit_count r.bit_offset r.to_string_sfx

/-- The member `operator!=`. -/
def op_ne (r o : register_desc) : Bool :=
  r.local_id != o.local_id || r.flags != o.flags
    || r.bit_count != o.bit_count || r.bit_offset != o.bit_offset

/-- The member `operator==`. -/
def op_eq (r o : register_desc) : Bool :=
  r.local_id == o.local_id && r.flags == o.flags
    && r.bit_count == o.bit_count && r.bit_offset == o.bit_offset

/-- The member `operator<`: a disjunction of the four field comparisons. -/
def op_lt (r o : register_desc) : Bool :=
  decide (r.local_id < o.local_id) || decide (r.flags < o.flags)
    || decide (r.bit_count < o.bit_count) || decide (r.bit_offset < o.bit_offset)

end register_desc

/-- The constant `REG_FLAGS`. -/
def REG_FLAGS : register_desc := ⟨register_physical ||| register_flags, 0, 64, 0⟩

/-- The constant `REG_SP`. -/
def REG_SP : register_desc := ⟨register_physical ||| register_stack_pointer, 0, 64, 0⟩

/-! ## Instruction descriptors (`arch/instruction_desc.cpp`) -/

/-- The enumeration `operand_access`, declared in `instruction_desc.hpp`
(not among the sources): the five enumerators the instruction table uses. -/
inductive operand_access where
  | write
  | read_reg
  | read_imm
  | read_any
  | readwrite
  deriving DecidableEq, Repr

namespace math

/-- The enumeration `math::operator_id`, declared in the math header (not
among the sources): the enumerators the instruction table names,
`bitwise_or` (the operation the table documents for `OR`, `OP1 |= OP2`), and
`invalid` for the value-initialised `{}` of an entry without operator. -/
inductive operator_id where
  | invalid
  | negate
  | add
  | substract
  | umultiply
  | multiply
  | multiply_high
  | umultiply_high
  | udivide
  | divide
  | uremainder
  | remainder
  | bitwise_not
  | shift_right
  | shift_left
  | bitwise_xor
  | bitwise_or
  | bitwise_and
  | rotate_right
  | rotate_left
  deriving DecidableEq, Repr

end math

/-- The type `instruction_desc`: the data members the constructor
initialises. -/
structure instruction_desc where
  name : String
  access_types : List operand_access
  access_size_index : Int
  is_volatile : Bool
  symbolic_operator : math.operator_id
  branch_operands_vip : List Int
  branch_operands_rip : List Int
  memory_operand_index : Int
  memory_write : Bool
  deriving DecidableEq, Repr

namespace instruction_desc

/-- The accessor `operand_count()`: the number of operand slots. -/
def operand_count (d : instruction_desc) : Nat := d.access_types.length

/-- The loop "Process branch operands": each entry is pushed to the back of
one of the two lists, `vip` when positive and `rip` otherwise. -/
def process_branch_operands : List Int → List Int × List Int → List Int × List Int
  | [], acc => acc
  | op :: rest, (vip, rip) =>
    if op > 0 then process_branch_operands rest (vip ++ [op - 1], rip)
    else process_branch_operands rest (vip, rip ++ [-op - 1])

/-- The constructor of `instruction_desc`.  `max_operand_count` is a
constant of `instruction_desc.hpp` (not among the sources) and is taken as
a parameter.  The four `fassert`s are checked in source order; `abs` is
`Int.natAbs`. -/
def construct (max_operand_count : Nat) (name : String)
    (access_types : List operand_access) (access_size_index : Int)
    (is_volatile : Bool) (symbolic_operator : math.operator_id)
    (branch_operands : List Int) (memory_operands : Int × Bool) :
    Option instruction_desc :=
  let count := access_types.length
  if ¬ (count ≤ max_operand_count) then none
  else if ¬ (access_size_index = 0 ∨ access_size_index.natAbs ≤ count) then none
  else if ¬ (memory_operands.1 = 0 ∨ memory_operands.1.natAbs ≤ count) then none
  else if ¬ (∀ op ∈ branch_operands, op ≠ 0 ∧ op.natAbs ≤ count) then none
  else
    let lists := process_branch_operands branch_operands ([], [])
    some
      { name := name
        access_types := access_types
        access_size_index := access_size_index - 1
        is_volatile := is_volatile
        symbolic_operator := symbolic_operator
        branch_operands_vip := lists.1
        branch_operands_rip := lists.2
        memory_operand_index := memory_operands.1 - 1
        memory_write := memory_operands.2 }

end instruction_desc

/-! ## The instruction table (`arch/instruction_set.hpp`)

Every entry is built by the constructor of `instruction_desc`, so each is an
`Option`; `max_operand_count` stays a parameter.  An empty `{}` is the
value-initialised argument: no operator, no branch operands, the pair
`( 0, false )`. -/

namespace ins

def mov (max_operand_count : Nat) : Option instruction_desc :=
  instruction_desc.construct max_operand_count "mov"
    [operand_access.write, operand_access.read_any]
    2 false math.operator_id.invalid [] (0, false)

def movr (max_operand_count : Nat) : Option instruction_desc :=
  instruction_desc.construct max_operand_count "movr"
    [operand_access.write, operand_access.read_imm]
    2 false math.operator_id.invalid [] (0, false)

def str (max_operand_count : Nat) : Option instruction_desc :=
  instruction_desc.construct max_operand_count "str"
    [operand_access.read_reg, operand_access.read_imm, operand_access.read_any]
    3 false math.operator_id.invalid [] (1, true)

def ldd (max_operand_count : Nat) : Option instruction_desc :=
  instruction_desc.construct max_operand_count "ldd"
    [operand_access.write, operand_access.read_reg, operand_access.read_imm]
    1 false math.operator_id.invalid [] (2, false)

def neg (max_operand_count : Nat) : Option instruction_desc :=
  instruction_desc.construct max_operand_count "neg"
    [operand_access.readwrite]
    1 false math.operator_id.negate [] (0, false)

def add (max_operand_count : Nat) : Option instruction_desc :=
  instruction_desc.construct max_operand_count "add"
    [operand_access.readwrite, operand_access.read_any]
    1 false math.operator_id.add [] (0, false)

def sub (max_operand_count : Nat) : Option instruction_desc :=
  instruction_desc.construct max_operand_count "sub"
    [operand_access.readwrite, operand_access.read_any]
    1 false math.operator_id.substract [] (0, false)

def mul (max_operand_count : Nat) : Option instruction_desc :=
  instruction_desc.construct max_operand_count "mul"
    [operand_access.readwrite, operand_access.read_any]
    1 false math.operator_id.umultiply [] (0, false)

def imul (max_operand_count : Nat) : Option instruction_desc :=
  instruction_desc.construct max_operand_count "imul"
    [operand_access.readwrite, operand_access.read_any]
    1 false math.operator_id.multiply [] (0, false)

def mulhi (max_operand_count : Nat) : Option instruction_desc :=
  instruction_desc.construct max_operand_count "mulhi"
    [operand_access.readwrite, operand_access.read_any]
    1 false math.operator_id.multiply_high [] (0, false)

def imulhi (max_operand_count : Nat) : Option instruction_desc :=
  instruction_desc.construct max_operand_count "imulhi"
    [operand_access.readwrite, operand_access.read_any]
    1 false math.operator_id.umultiply_high [] (0, false)

def div (max_operand_count : Nat) : Option instruction_desc :=
  instruction_desc.construct max_operand_count "div"
    [operand_access.readwrite, operand_access.read_any, operand_access.read_any]
    1 false math.operator_id.udivide [] (0, false)

def idiv (max_operand_count : Nat) : Option instruction_desc :=
  instruction_desc.construct max_operand_count "idiv"
    [operand_access.readwrite, operand_access.read_any, operand_access.read_any]
    1 false math.operator_id.divide [] (0, false)

def rem (max_operand_count : Nat) : Option instruction_desc :=
  instruction_desc.construct max_operand_count "rem"
    [operand_access.readwrite, operand_access.read_any, operand_access.read_any]
    1 false math.operator_id.uremainder [] (0, false)

def irem (max_operand_count : Nat) : Option instruction_desc :=
  instruction_desc.construct max_operand_count "irem"
    [operand_access.readwrite, operand_access.read_any, operand_access.read_any]
    1 false math.operator_id.remainder [] (0, false)

def bnot (max_operand_count : Nat) : Option instruction_desc :=
  instruction_desc.construct max_operand_count "not"
    [operand_access.readwrite]
    1 false math.operator_id.bitwise_not [] (0, false)

def bshr (max_operand_count : Nat) : Option instruction_desc :=
  instruction_desc.construct max_operand_count "shr"
    [operand_access.readwrite, operand_access.read_any]
    1 false math.operator_id.shift_right [] (0, false)

def bshl (max_operand_count : Nat) : Option instruction_desc :=
  instruction_desc.construct max_operand_count "shl"
    [operand_access.readwrite, operand_access.read_any]
    1 false math.operator_id.shift_left [] (0, false)

def bxor (max_operand_count : Nat) : Option instruction_desc :=
  instruction_desc.construct max_operand_count "xor"
    [operand_access.readwrite, operand_access.read_any]
    1 false math.operator_id.bitwise_xor [] (0, false)

def bor (max_operand_count : Nat) : Option instruction_desc :=
  instruction_desc.construct max_operand_count "or"
    [operand_access.readwrite, operand_access.read_any]
    1 false math.operator_id.bitwise_xor [] (0, false)

def band (max_operand_count : Nat) : Option instruction_desc :=
  instruction_desc.construct max_operand_count "and"
    [operand_access.readwrite, operand_access.read_any]
    1 false math.operator_id.bitwise_and [] (0, false)

def bror (max_operand_count : Nat) : Option instruction_desc :=
  instruction_desc.construct max_operand_count "ror"
    [operand_access.readwrite, operand_access.read_any]
    1 false math.operator_id.rotate_right [] (0, false)

def brol (max_operand_count : Nat) : Option instruction_desc :=
  instruction_desc.construct max_operand_count "rol"
    [operand_access.readwrite, operand_access.read_any]
    1 false math.operator_id.rotate_left [] (0, false)

def js (max_operand_count : Nat) : Option instruction_desc :=
  instruction_desc.construct max_operand_count "js"
    [operand_access.read_reg, operand_access.read_any, operand_access.read_any]
    2 true math.operator_id.invalid [1, 2] (0, false)

def jmp (max_operand_count : Nat) : Option instruction_desc :=
  instruction_desc.construct max_operand_count "jmp"
    [operand_access.read_any]
    1 true math.operator_id.invalid [1] (0, false)

def vexit (max_operand_count : Nat) : Option instruction_desc :=
  instruction_desc.construct max_operand_count "vexit"
    [operand_access.read_any]
    1 true math.operator_id.invalid [(-1)] (0, false)

def vxcall (max_operand_count : Nat) : Option instruction_desc :=
  instruction_desc.construct max_operand_count "vxcall"
    [operand_access.read_any]
    1 true math.operator_id.invalid [] (0, false)

def nop (max_operand_count : Nat) : Option instruction_desc :=
  instruction_desc.construct max_operand_count "nop"
    []
    0 false math.operator_id.invalid [] (0, false)

def upflg (max_operand_count : Nat) : Option instruction_desc :=
  instruction_desc.construct max_operand_count "upflg"
    [operand_access.readwrite]
    1 false math.operator_id.invalid [] (0, false)

def vsetcc (max_operand_count : Nat) : Option instruction_desc :=
  instruction_desc.construct max_operand_count "vsetcc"
    [operand_access.write, operand_access.read_imm]
    1 false math.operator_id.invalid [] (0, false)

def vemit (max_operand_count : Nat) : Option instruction_desc :=
  instruction_desc.construct max_operand_count "vemit"
    [operand_access.read_imm]
    1 true math.operator_id.invalid [] (0, false)

def vpinr (max_operand_count : Nat) : Option instruction_desc :=
  instruction_desc.construct max_operand_count "vpinr"
    [operand_access.read_reg]
    1 true math.operator_id.invalid [] (0, false)

def vpinw (max_operand_count : Nat) : Option instruction_desc :=
  instruction_desc.construct max_operand_count "vpinw"
    [operand_access.write]
    1 true math.operator_id.invalid [] (0, false)

def vpinrm (max_operand_count : Nat) : Option instruction_desc :=
  instruction_desc.construct max_operand_count "vpinrm"
    [operand_access.read_reg, operand_access.read_imm]
    1 true math.operator_id.invalid [] (1, false)

def vpinwm (max_operand_count : Nat) : Option instruction_desc :=
  instruction_desc.construct max_operand_count "vpinwm"
    [operand_access.read_reg, operand_access.read_imm]
    1 true math.operator_id.invalid [] (1, true)

end ins

/-- The array `instruction_list`, in source order. -/
def instruction_list (max_operand_count : Nat) : List (Option instruction_desc) :=
  [
    ins.mov max_operand_count, ins.movr max_operand_count, ins.str max_operand_count, ins.ldd max_operand_count, ins.neg max_operand_count, ins.add max_operand_count,
    ins.sub max_operand_count, ins.mul max_operand_count, ins.imul max_operand_count, ins.mulhi max_operand_count, ins.imulhi max_operand_count, ins.div max_operand_count,
    ins.idiv max_operand_count, ins.rem max_operand_count, ins.irem max_operand_count, ins.bnot max_operand_count, ins.bshr max_operand_count, ins.bshl max_operand_count,
    ins.bxor max_operand_count, ins.bor max_operand_count, ins.band max_operand_count, ins.bror max_operand_count, ins.brol max_operand_count, ins.upflg max_operand_count,
    ins.js max_operand_count, ins.jmp max_operand_count, ins.vexit max_operand_count, ins.vxcall max_operand_count, ins.nop max_operand_count, ins.vsetcc max_operand_count,
    ins.vemit max_operand_count, ins.vpinr max_operand_count, ins.vpinw max_operand_count, ins.vpinrm max_operand_count, ins.vpinwm max_operand_count
  ]

/-- The descriptors declared in namespace `ins`, in declaration order. -/
def ins_declared (max_operand_count : Nat) : List (Option instruction_desc) :=
  [
    ins.mov max_operand_count, ins.movr max_operand_count, ins.str max_operand_count, ins.ldd max_operand_count, ins.neg max_operand_count, ins.add max_operand_count,
    ins.sub max_operand_count, ins.mul max_operand_count, ins.imul max_operand_count, ins.mulhi max_operand_count, ins.imulhi max_operand_count, ins.div max_operand_count,
    ins.idiv max_operand_count, ins.rem max_operand_count, ins.irem max_operand_count, ins.bnot max_operand_count, ins.bshr max_operand_count, ins.bshl max_operand_count,
    ins.bxor max_operand_count, ins.bor max_operand_count, ins.band max_operand_count, ins.bror max_operand_count, ins.brol max_operand_count, ins.js max_operand_count,
    ins.jmp max_operand_count, ins.vexit max_operand_count, ins.vxcall max_operand_count, ins.nop max_operand_count, ins.upflg max_operand_count, ins.vsetcc max_operand_count,
    ins.vemit max_operand_count, ins.vpinr max_operand_count, ins.vpinw max_operand_count, ins.vpinrm max_operand_count, ins.vpinwm max_operand_count
  ]

end vtil

/-! ## Properties of register descriptors -/

namespace vtil

theorem register_desc.construct_eq_some_iff (flags id : Nat) (bit_count bit_offset : Int)
    (r : register_desc) :
    register_desc.construct flags id bit_count bit_offset = some r ↔
      r = ⟨flags, id, bit_count, bit_offset⟩ ∧ r.is_valid = true := by
  unfold register_desc.construct
  constructor
  · intro h
    by_cases hv : register_desc.is_valid ⟨flags, id, bit_count, bit_offset⟩ = true
    · simp only [hv, if_true, Option.some.injEq] at h
      subst h
      exact ⟨rfl, hv⟩
    · simp [hv] at h
  · rintro ⟨rfl, hv⟩
    simp [hv]

theorem register_desc.construct_eq_none_iff (flags id : Nat) (bit_count bit_offset : Int) :
    register_desc.construct flags id bit_count bit_offset = none ↔
      register_desc.is_valid ⟨flags, id, bit_count, bit_offset⟩ = false := by
  unfold register_desc.construct
  by_cases hv : register_desc.is_valid ⟨flags, id, bit_count, bit_offset⟩ = true
  · simp [hv]
  · simp [hv]

/-- What `is_valid()` checks, as a proposition over the four members: the
bit count is compared with zero only for equality. -/
theorem register_desc.is_valid_iff (r : register_desc) :
    r.is_valid = true ↔
      r.bit_count ≠ 0 ∧ r.bit_count + r.bit_offset ≤ 64
      ∧ ((r.flags &&& register_flags ≠ 0 ∨ r.flags &&& register_stack_pointer ≠ 0) →
          r.flags &&& register_physical ≠ 0 ∧ r.flags &&& register_volatile = 0
            ∧ r.flags &&& register_readonly = 0)
      ∧ ¬ (r.flags &&& register_physical ≠ 0 ∧ r.flags &&& register_local ≠ 0) := by
  simp only [register_desc.is_valid, register_desc.is_stack_pointer, register_desc.is_flags,
    register_desc.is_volatile, register_desc.is_read_only, register_desc.is_physical,
    register_desc.is_local]
  by_cases h0 : r.bit_count = 0
  · simp [h0]
  by_cases h1 : r.bit_count + r.bit_offset > 64
  · simp [h0, h1]
  have h1le : r.bit_count + r.bit_offset ≤ 64 := by omega
  by_cases hf : r.flags &&& register_flags = 0 <;>
  by_cases hs : r.flags &&& register_stack_pointer = 0 <;>
  by_cases hp : r.flags &&& register_physical = 0 <;>
  by_cases hvv : r.flags &&& register_volatile = 0 <;>
  by_cases hr : r.flags &&& register_readonly = 0 <;>
  by_cases hl : r.flags &&& register_local = 0 <;>
  simp [h0, h1, h1le, hf, hs, hp, hvv, hr, hl]

/-- For members that are counts (not below zero), `is_valid()` confines the
bit count to 1..64 and the bit offset to 0..63. -/
theorem register_desc.is_valid_ranges (r : register_desc) (hv : r.is_valid = true)
    (hc : 0 ≤ r.bit_count) (ho : 0 ≤ r.bit_offset) :
    1 ≤ r.bit_count ∧ r.bit_count ≤ 64 ∧ 0 ≤ r.bit_offset ∧ r.bit_offset ≤ 63 := by
  obtain ⟨h0, h1, -⟩ := (register_desc.is_valid_iff r).1 hv
  omega

/-- C1: construction is meant to succeed exactly when the data-model
invariants hold, the first of which is `bit_count > 0`.  The constructor
accepts the arguments `( register_virtual, 0, -1, 0 )`: `is_valid()` tests
the bit count for equality with zero only, so a descriptor with the bit
count `-1` is returned although `bit_count > 0` fails. -/
theorem C1_construct_accepts_negative_bit_count :
    register_desc.construct register_virtual 0 (-1) 0
        = some ⟨register_virtual, 0, -1, 0⟩
      ∧ ¬ ((0 : Int) < (-1)) := by
  decide

/-- C2: whenever the flags carry the flags-register bit or the
stack-pointer bit, and also the volatile bit, or the read-only bit, or lack
the physical bit, construction fails for every id, bit count and bit
offset. -/
theorem C2_special_register_flags_rejected (flags id : Nat) (bit_count bit_offset : Int)
    (hspecial : flags &&& register_flags ≠ 0 ∨ flags &&& register_stack_pointer ≠ 0)
    (hbad : flags &&& register_volatile ≠ 0 ∨ flags &&& register_readonly ≠ 0
      ∨ flags &&& register_physical = 0) :
    register_desc.construct flags id bit_count bit_offset = none := by
  rw [register_desc.construct_eq_none_iff]
  cases hv : register_desc.is_valid ⟨flags, id, bit_count, bit_offset⟩ with
  | false => rfl
  | true =>
    exfalso
    obtain ⟨-, -, hsp, -⟩ := (register_desc.is_valid_iff _).1 hv
    obtain ⟨hp, hvol, hro⟩ := hsp hspecial
    rcases hbad with h | h | h
    · exact h hvol
    · exact h hro
    · exact hp h

theorem C2_special_register_flags_rejected_witness :
    register_desc.construct (register_flags ||| register_volatile) 7 64 0 = none :=
  C2_special_register_flags_rejected (register_flags ||| register_volatile) 7 64 0
    (Or.inl (by decide)) (Or.inl (by decide))

/-- C3: every descriptor accepted by `is_valid()` is meant to have its bit
count in 1..64 and its bit offset in 0..63.  `is_valid()` accepts the
descriptor with bit count `-1` and bit offset `0`, and the one with bit
count `1` and bit offset `-1`: neither the sign of the count nor the sign of
the offset is checked. -/
theorem C3_is_valid_accepts_out_of_range_fields :
    register_desc.is_valid ⟨register_virtual, 0, -1, 0⟩ = true
      ∧ ¬ ((1 : Int) ≤ (-1))
      ∧ register_desc.is_valid ⟨register_virtual, 0, 1, -1⟩ = true
      ∧ ¬ ((0 : Int) ≤ (-1)) := by
  decide

/-! ### Masks -/

theorem math.fill_eq_of_le (c o : Nat) (h : c + o ≤ 64) :
    math.fill c o = (2 ^ c - 1) * 2 ^ o := by
  have hc : 2 ^ c ≤ 2 ^ 64 := Nat.pow_le_pow_right (by decide) (by omega)
  have hpos : 0 < 2 ^ c := Nat.pow_pos (by decide)
  have h1 : (2 ^ c - 1) % 2 ^ 64 = 2 ^ c - 1 := Nat.mod_eq_of_lt (by omega)
  have hopos : 0 < 2 ^ o := Nat.pow_pos (by decide)
  have h2 : (2 ^ c - 1) * 2 ^ o < 2 ^ 64 := by
    calc (2 ^ c - 1) * 2 ^ o < 2 ^ c * 2 ^ o :=
          Nat.mul_lt_mul_of_pos_right (by omega) hopos
      _ = 2 ^ (c + o) := (Nat.pow_add 2 c o).symm
      _ ≤ 2 ^ 64 := Nat.pow_le_pow_right (by decide) h
  unfold math.fill
  simp only [Int.toNat_ofNat, Nat.shiftLeft_eq]
  rw [h1, Nat.mod_eq_of_lt h2]

theorem math.testBit_contiguous (c o i : Nat) :
    ((2 ^ c - 1) * 2 ^ o).testBit i = decide (o ≤ i ∧ i < o + c) := by
  rw [← Nat.shiftLeft_eq, Nat.testBit_shiftLeft, Nat.testBit_two_pow_sub_one]
  by_cases h1 : o ≤ i
  · by_cases h2 : i < o + c
    · have : i - o < c := by omega
      simp [h1, h2, this]
    · have : ¬ (i - o < c) := by omega
      simp [h1, h2, this]
  · simp [h1]

theorem math.countP_window (c o n : Nat) (h : o + c ≤ n) :
    (List.range n).countP (fun i => decide (o ≤ i ∧ i < o + c)) = c := by
  have hsplit : List.range n
      = List.range' 0 o ++ (List.range' o c ++ List.range' (o + c) (n - (o + c))) := by
    rw [List.range_eq_range']
    have e1 := List.range'_append o c (n - (o + c)) 1
    have e2 := List.range'_append 0 o (n - (o + c) + c) 1
    simp only [Nat.one_mul, Nat.zero_add] at e1 e2
    rw [e1, e2]
    congr 1
    omega
  rw [hsplit, List.countP_append, List.countP_append]
  have hA : (List.range' 0 o).countP (fun i => decide (o ≤ i ∧ i < o + c)) = 0 := by
    rw [List.countP_eq_zero]
    intro a ha
    rw [List.mem_range'_1] at ha
    simp only [decide_eq_true_eq]
    omega
  have hB : (List.range' o c).countP (fun i => decide (o ≤ i ∧ i < o + c)) = c := by
    have : (List.range' o c).countP (fun i => decide (o ≤ i ∧ i < o + c))
        = (List.range' o c).length := by
      rw [List.countP_eq_length]
      intro a ha
      rw [List.mem_range'_1] at ha
      simp only [decide_eq_true_eq]
      omega
    rw [this, List.length_range']
  have hC : (List.range' (o + c) (n - (o + c))).countP
      (fun i => decide (o ≤ i ∧ i < o + c)) = 0 := by
    rw [List.countP_eq_zero]
    intro a ha
    rw [List.mem_range'_1] at ha
    simp only [decide_eq_true_eq]
    omega
  rw [hA, hB, hC]; omega

theorem math.set_bit_count_contiguous (c o : Nat) (h : o + c ≤ 64) :
    math.set_bit_count ((2 ^ c - 1) * 2 ^ o) = c := by
  unfold math.set_bit_count
  have : (fun i => ((2 ^ c - 1) * 2 ^ o).testBit i)
      = (fun i => decide (o ≤ i ∧ i < o + c)) := by
    funext i
    exact math.testBit_contiguous c o i
  rw [this]
  exact math.countP_window c o 64 h

/-- The mask of a descriptor whose bit fields are the naturals `c` and `o`
with `c + o ≤ 64`. -/
theorem register_desc.get_mask_eq (r : register_desc) (c o : Nat)
    (hc : r.bit_count = c) (ho : r.bit_offset = o) (h : c + o ≤ 64) :
    r.get_mask = (2 ^ c - 1) * 2 ^ o := by
  unfold register_desc.get_mask
  rw [hc, ho]
  exact math.fill_eq_of_le c o h

/-- C4: for every valid register descriptor (accepted by `is_valid()`, with
the bit count above zero and the bit offset not below zero, as the data
model has them), `get_mask()` has exactly `bit_count` set bits, bit `i` of
the 64 is set if and only if `bit_offset ≤ i < bit_offset + bit_count`, and
the 64-bit value equals the untruncated `fill(bit_count) << bit_offset`, so
no set bit is lost. -/
theorem C4_get_mask_contiguous (r : register_desc) (hv : r.is_valid = true)
    (hc : 0 < r.bit_count) (ho : 0 ≤ r.bit_offset) :
    (math.set_bit_count r.get_mask : Int) = r.bit_count
      ∧ (∀ i : Nat, i < 64 →
          (r.get_mask.testBit i = true ↔
            r.bit_offset ≤ (i : Int) ∧ (i : Int) < r.bit_offset + r.bit_count))
      ∧ r.get_mask = (2 ^ r.bit_count.toNat - 1) * 2 ^ r.bit_offset.toNat
      ∧ r.get_mask < 2 ^ 64 := by
  obtain ⟨-, hsum, -⟩ := (register_desc.is_valid_iff r).1 hv
  obtain ⟨c, hc'⟩ := Int.eq_ofNat_of_zero_le (le_of_lt hc)
  obtain ⟨o, ho'⟩ := Int.eq_ofNat_of_zero_le ho
  have hle : c + o ≤ 64 := by omega
  have hm := register_desc.get_mask_eq r c o hc' ho' hle
  refine ⟨?_, ?_, ?_, ?_⟩
  · rw [hm, math.set_bit_count_contiguous c o (by omega), hc']
  · intro i _
    rw [hm, math.testBit_contiguous, hc', ho']
    simp only [decide_eq_true_eq]
    omega
  · rw [hm, hc', ho']
    simp
  · rw [hm]
    have hopos : 0 < 2 ^ o := Nat.pow_pos (by decide)
    have hcpos : 0 < 2 ^ c := Nat.pow_pos (by decide)
    calc (2 ^ c - 1) * 2 ^ o < 2 ^ c * 2 ^ o :=
          Nat.mul_lt_mul_of_pos_right (by omega) hopos
      _ = 2 ^ (c + o) := (Nat.pow_add 2 c o).symm
      _ ≤ 2 ^ 64 := Nat.pow_le_pow_right (by decide) hle

theorem C4_get_mask_contiguous_witness :
    (math.set_bit_count (register_desc.get_mask ⟨register_physical, 3, 8, 56⟩) : Int) = 8
      ∧ (∀ i : Nat, i < 64 →
          ((register_desc.get_mask ⟨register_physical, 3, 8, 56⟩).testBit i = true ↔
            (56 : Int) ≤ (i : Int) ∧ (i : Int) < 56 + 8))
      ∧ register_desc.get_mask ⟨register_physical, 3, 8, 56⟩
          = (2 ^ (8 : Int).toNat - 1) * 2 ^ (56 : Int).toNat
      ∧ register_desc.get_mask ⟨register_physical, 3, 8, 56⟩ < 2 ^ 64 :=
  C4_get_mask_contiguous ⟨register_physical, 3, 8, 56⟩ (by decide) (by decide) (by decide)

/-- Two contiguous masks intersect exactly when their bit ranges share a
position. -/
theorem math.contiguous_and_ne_zero_iff (ca oa cb ob : Nat) :
    ((2 ^ ca - 1) * 2 ^ oa) &&& ((2 ^ cb - 1) * 2 ^ ob) ≠ 0 ↔
      ∃ i : Nat, (oa ≤ i ∧ i < oa + ca) ∧ (ob ≤ i ∧ i < ob + cb) := by
  constructor
  · intro h
    obtain ⟨i, hi⟩ := Nat.ne_zero_implies_bit_true h
    rw [Nat.testBit_and, math.testBit_contiguous, math.testBit_contiguous] at hi
    simp only [Bool.and_eq_true, decide_eq_true_eq] at hi
    exact ⟨i, hi⟩
  · rintro ⟨i, hi⟩ h0
    have hbit : (((2 ^ ca - 1) * 2 ^ oa) &&& ((2 ^ cb - 1) * 2 ^ ob)).testBit i = true := by
      rw [Nat.testBit_and, math.testBit_contiguous, math.testBit_contiguous]
      simp only [Bool.and_eq_true, decide_eq_true_eq]
      exact hi
    rw [h0, Nat.zero_testBit] at hbit
    exact Bool.noConfusion hbit

/-- C5: for every two valid register descriptors `a` and `b` (accepted by
`is_valid()`, with bit counts above zero and bit offsets not below zero),
`a.overlaps(b)` is true if and only if the ids are equal, the flags are
equal, and the half-open bit ranges
`[bit_offset, bit_offset + bit_count)` of the two share a bit position;
hence it is false when the ids differ, the flags differ, or the ranges are
disjoint. -/
theorem C5_overlaps_iff (a b : register_desc)
    (hva : a.is_valid = true) (hca : 0 < a.bit_count) (hoa : 0 ≤ a.bit_offset)
    (hvb : b.is_valid = true) (hcb : 0 < b.bit_count) (hob : 0 ≤ b.bit_offset) :
    a.overlaps b = true ↔
      a.local_id = b.local_id ∧ a.flags = b.flags
      ∧ ∃ i : Int, (a.bit_offset ≤ i ∧ i < a.bit_offset + a.bit_count)
          ∧ (b.bit_offset ≤ i ∧ i < b.bit_offset + b.bit_count) := by
  obtain ⟨-, hsa, -⟩ := (register_desc.is_valid_iff a).1 hva
  obtain ⟨-, hsb, -⟩ := (register_desc.is_valid_iff b).1 hvb
  obtain ⟨ca, hca'⟩ := Int.eq_ofNat_of_zero_le (le_of_lt hca)
  obtain ⟨oa, hoa'⟩ := Int.eq_ofNat_of_zero_le hoa
  obtain ⟨cb, hcb'⟩ := Int.eq_ofNat_of_zero_le (le_of_lt hcb)
  obtain ⟨ob, hob'⟩ := Int.eq_ofNat_of_zero_le hob
  have hma := register_desc.get_mask_eq a ca oa hca' hoa' (by omega)
  have hmb := register_desc.get_mask_eq b cb ob hcb' hob' (by omega)
  have hrange :
      (∃ i : Int, (a.bit_offset ≤ i ∧ i < a.bit_offset + a.bit_count)
          ∧ (b.bit_offset ≤ i ∧ i < b.bit_offset + b.bit_count)) ↔
        ∃ i : Nat, (oa ≤ i ∧ i < oa + ca) ∧ (ob ≤ i ∧ i < ob + cb) := by
    rw [hca', hoa', hcb', hob']
    constructor
    · rintro ⟨i, hi⟩
      refine ⟨i.toNat, ?_⟩
      omega
    · rintro ⟨i, hi⟩
      refine ⟨(i : Int), ?_⟩
      omega
  unfold register_desc.overlaps
  rw [hma, hmb, hrange, ← math.contiguous_and_ne_zero_iff]
  by_cases hid : a.local_id = b.local_id
  · by_cases hfl : a.flags = b.flags
    · simp [hid, hfl]
    · simp [hid, hfl]
  · simp [hid]

theorem C5_overlaps_iff_witness :
    register_desc.overlaps ⟨register_physical, 3, 16, 0⟩ ⟨register_physical, 3, 8, 8⟩ = true
      ∧ register_desc.overlaps ⟨register_physical, 3, 8, 0⟩ ⟨register_physical, 3, 8, 8⟩
          = false :=
  ⟨(C5_overlaps_iff ⟨register_physical, 3, 16, 0⟩ ⟨register_physical, 3, 8, 8⟩
      (by decide) (by decide) (by decide) (by decide) (by decide) (by decide)).2
      ⟨rfl, rfl, 8, by decide⟩,
   Bool.eq_false_iff.2 (fun h => by
      obtain ⟨-, -, i, hi⟩ :=
        (C5_overlaps_iff ⟨register_physical, 3, 8, 0⟩ ⟨register_physical, 3, 8, 8⟩
          (by decide) (by decide) (by decide) (by decide) (by decide) (by decide)).1 h
      simp only at hi
      omega)⟩

/-! ### Rendering -/

/-- What `to_string()` returns for a descriptor without the flags-register,
stack-pointer and local bits: the namer instantiated with `false` renders
the physical registers, the one instantiated with `true` the others. -/
theorem register_desc.to_string_plain (r : register_desc)
    (hf : r.flags &&& register_flags = 0) (hs : r.flags &&& register_stack_pointer = 0)
    (hl : r.flags &&& register_local = 0) :
    (r.flags &&& register_physical ≠ 0 →
        r.to_string = r.to_string_pfx ++ ("vr" ++ toString r.local_id ++ r.to_string_sfx))
      ∧ (r.flags &&& register_physical = 0 →
        r.to_string = r.to_string_pfx ++ ("r" ++ toString r.local_id ++ r.to_string_sfx)) := by
  constructor
  · intro hp
    simp [register_desc.to_string, register_namer, hf, hs, hl, hp]
  · intro hp
    simp [register_desc.to_string, register_namer, hf, hs, hl, hp]

/-- C6: a descriptor without the flags-register, stack-pointer and local
bits is meant to render as `r<id>` when physical and `vr<id>` when virtual.
`to_string()` renders the physical register `( register_physical, 0, 64, 0 )`
as `vr0` and the virtual register `( register_virtual, 0, 64, 0 )` as `r0`:
the two instantiations of the namer are exchanged. -/
theorem C6_to_string_exchanges_namers :
    register_desc.to_string ⟨register_physical, 0, 64, 0⟩ = "vr0"
      ∧ register_desc.to_string ⟨register_virtual, 0, 64, 0⟩ = "r0"
      ∧ register_desc.construct register_physical 0 64 0
          = some ⟨register_physical, 0, 64, 0⟩
      ∧ register_desc.construct register_virtual 0 64 0
          = some ⟨register_virtual, 0, 64, 0⟩ := by
  decide

/-- A decimal digit is neither the offset mark `@` nor the bit-count
mark `:`. -/
theorem decimal_digitChar_plain (k : Nat) (h : k < 10) :
    Nat.digitChar k ≠ '@' ∧ Nat.digitChar k ≠ ':' := by
  interval_cases k <;> decide

theorem decimal_toDigitsCore_plain (fuel : Nat) : ∀ (n : Nat) (ds : List Char),
    (∀ c ∈ ds, c ≠ '@' ∧ c ≠ ':') →
    ∀ c ∈ Nat.toDigitsCore 10 fuel n ds, c ≠ '@' ∧ c ≠ ':' := by
  induction fuel with
  | zero =>
    intro n ds hds c hc
    exact hds c (by simpa [Nat.toDigitsCore] using hc)
  | succ fuel ih =>
    intro n ds hds c hc
    have hd : ∀ c ∈ Nat.digitChar (n % 10) :: ds, c ≠ '@' ∧ c ≠ ':' := by
      intro c hc
      rcases List.mem_cons.1 hc with rfl | hc
      · exact decimal_digitChar_plain _ (Nat.mod_lt _ (by decide))
      · exact hds c hc
    simp only [Nat.toDigitsCore] at hc
    split_ifs at hc with h0
    · exact hd c hc
    · exact ih _ _ hd c hc

/-- The decimal rendering of a `size_t` holds neither `@` nor `:`. -/
theorem decimal_nat_plain (n : Nat) : ∀ c ∈ (toString n).data, c ≠ '@' ∧ c ≠ ':' := by
  intro c hc
  have h : (toString n).data = Nat.toDigits 10 n := rfl
  rw [h] at hc
  exact decimal_toDigitsCore_plain _ _ _ (by simp) c hc

/-- The decimal rendering of a `bitcnt_t` (digits after an optional minus
sign) holds neither `@` nor `:`. -/
theorem decimal_int_plain (i : Int) : ∀ c ∈ (toString i).data, c ≠ '@' ∧ c ≠ ':' := by
  intro c hc
  cases i with
  | ofNat m =>
    have h : (toString (Int.ofNat m)).data = (toString m).data := rfl
    rw [h] at hc
    exact decimal_nat_plain m c hc
  | negSucc m =>
    have h : (toString (Int.negSucc m)).data = '-' :: (toString (m + 1)).data := rfl
    rw [h] at hc
    rcases List.mem_cons.1 hc with rfl | hc
    · decide
    · exact decimal_nat_plain _ c hc

/-- A property of all characters of two strings holds of all characters of
their concatenation. -/
theorem forall_mem_data_append (Q : Char → Prop) (s t : String)
    (hs : ∀ c ∈ s.data, Q c) (ht : ∀ c ∈ t.data, Q c) :
    ∀ c ∈ (s ++ t).data, Q c := by
  intro c hc
  rw [String.data_append, List.mem_append] at hc
  rcases hc with hc | hc
  · exact hs c hc
  · exact ht c hc

/-- C7: for every register descriptor, `to_string()` returns the marks and
the name of the register followed by exactly one suffix, which is
`":" + decimal(bit_count)` when `bit_count != 64`, otherwise
`"@" + decimal(bit_offset)` when `bit_offset != 0`, otherwise empty (this
is the value of the local `suffix`); the rendered text never contains both
an offset suffix and a bit-count suffix (it holds no `@` when
`bit_count != 64` and no `:` when `bit_count == 64`); and a descriptor with
nonzero offset and a bit count other than 64 renders exactly like the
descriptor with the same flags, id and bit count at offset 0. -/
theorem C7_suffix_bit_count_replaces_offset (r : register_desc) :
    r.to_string
        = (if r.flags &&& register_volatile ≠ 0 then "?" else "")
          ++ (if r.flags &&& register_readonly ≠ 0 then "&&" else "")
          ++ (if r.flags &&& register_flags ≠ 0 then "$flags"
              else if r.flags &&& register_stack_pointer ≠ 0 then "$sp"
              else if r.flags &&& register_local ≠ 0 then "t" ++ toString r.local_id
              else if r.flags &&& register_physical ≠ 0 then "vr" ++ toString r.local_id
              else "r" ++ toString r.local_id)
          ++ (if r.bit_count ≠ 64 then ":" ++ toString r.bit_count
              else if r.bit_offset ≠ 0 then "@" ++ toString r.bit_offset else "")
      ∧ r.to_string_sfx
        = (if r.bit_count ≠ 64 then ":" ++ toString r.bit_count
           else if r.bit_offset ≠ 0 then "@" ++ toString r.bit_offset else "")
      ∧ (r.bit_count ≠ 64 → '@' ∉ r.to_string.data)
      ∧ (r.bit_count = 64 → ':' ∉ r.to_string.data)
      ∧ (r.bit_offset ≠ 0 → r.bit_count ≠ 64 →
          r.to_string
            = register_desc.to_string ⟨r.flags, r.local_id, r.bit_count, 0⟩) := by
  have hmarks : ∀ c ∈ ((if r.flags &&& register_volatile ≠ 0 then "?" else "")
      ++ (if r.flags &&& register_readonly ≠ 0 then "&&" else "")).data,
      c ≠ '@' ∧ c ≠ ':' := by
    by_cases hv : r.flags &&& register_volatile = 0 <;>
    by_cases hr : r.flags &&& register_readonly = 0 <;>
      simp only [hv, hr, ne_eq, not_true_eq_false, not_false_eq_true, if_true, if_false] <;>
      decide
  have hname : ∀ c ∈ (if r.flags &&& register_flags ≠ 0 then "$flags"
      else if r.flags &&& register_stack_pointer ≠ 0 then "$sp"
      else if r.flags &&& register_local ≠ 0 then "t" ++ toString r.local_id
      else if r.flags &&& register_physical ≠ 0 then "vr" ++ toString r.local_id
      else "r" ++ toString r.local_id).data, c ≠ '@' ∧ c ≠ ':' := by
    split_ifs
    · decide
    · decide
    · exact forall_mem_data_append _ _ _ (by decide) (decimal_nat_plain _)
    · exact forall_mem_data_append _ _ _ (by decide) (decimal_nat_plain _)
    · exact forall_mem_data_append _ _ _ (by decide) (decimal_nat_plain _)
  have hhead := forall_mem_data_append _ _ _ hmarks hname
  have htext :
      r.to_string
        = (if r.flags &&& register_volatile ≠ 0 then "?" else "")
          ++ (if r.flags &&& register_readonly ≠ 0 then "&&" else "")
          ++ (if r.flags &&& register_flags ≠ 0 then "$flags"
              else if r.flags &&& register_stack_pointer ≠ 0 then "$sp"
              else if r.flags &&& register_local ≠ 0 then "t" ++ toString r.local_id
              else if r.flags &&& register_physical ≠ 0 then "vr" ++ toString r.local_id
              else "r" ++ toString r.local_id)
          ++ (if r.bit_count ≠ 64 then ":" ++ toString r.bit_count
              else if r.bit_offset ≠ 0 then "@" ++ toString r.bit_offset else "") := by
    have hpfx : r.to_string_pfx
        = (if r.flags &&& register_volatile ≠ 0 then "?" else "")
          ++ (if r.flags &&& register_readonly ≠ 0 then "&&" else "") := by
      by_cases hv : r.flags &&& register_volatile = 0 <;>
      by_cases hr : r.flags &&& register_readonly = 0 <;>
        simp [register_desc.to_string_pfx, hv, hr]
    have hsfx : r.to_string_sfx
        = (if r.bit_count ≠ 64 then ":" ++ toString r.bit_count
           else if r.bit_offset ≠ 0 then "@" ++ toString r.bit_offset else "") := by
      by_cases hc : r.bit_count = 64 <;> by_cases ho : r.bit_offset = 0 <;>
        simp [register_desc.to_string_sfx, hc, ho]
    unfold register_desc.to_string
    rw [hpfx, hsfx]
    generalize (if r.flags &&& register_volatile ≠ 0 then "?" else "")
      ++ (if r.flags &&& register_readonly ≠ 0 then "&&" else "") = P
    generalize (if r.bit_count ≠ 64 then ":" ++ toString r.bit_count
      else if r.bit_offset ≠ 0 then "@" ++ toString r.bit_offset else "") = S
    by_cases hf : r.flags &&& register_flags = 0
    · by_cases hs : r.flags &&& register_stack_pointer = 0
      · by_cases hl : r.flags &&& register_local = 0
        · by_cases hp : r.flags &&& register_physical = 0
          · simp [hf, hs, hl, hp, register_namer, String.append_assoc]
          · simp [hf, hs, hl, hp, register_namer, String.append_assoc]
        · simp [hf, hs, hl, String.append_assoc]
      · simp [hf, hs]
    · simp [hf]
  refine ⟨htext, ?_, ?_, ?_, ?_⟩
  · by_cases hc : r.bit_count = 64 <;> by_cases ho : r.bit_offset = 0 <;>
      simp [register_desc.to_string_sfx, hc, ho]
  · intro hc hmem
    rw [htext, if_pos hc] at hmem
    have hall := forall_mem_data_append (fun c => c ≠ '@') _ _
      (fun c hc' => (hhead c hc').1)
      (forall_mem_data_append (fun c => c ≠ '@') ":" (toString r.bit_count)
        (by decide) (fun c hc' => (decimal_int_plain _ c hc').1))
    exact hall _ hmem rfl
  · intro hc hmem
    rw [htext, if_neg (not_not.2 hc)] at hmem
    have hsuf : ∀ c ∈ (if r.bit_offset ≠ 0 then "@" ++ toString r.bit_offset
        else "").data, c ≠ ':' := by
      split_ifs
      · exact forall_mem_data_append (fun c => c ≠ ':') "@" (toString r.bit_offset)
          (by decide) (fun c hc' => (decimal_int_plain _ c hc').2)
      · decide
    have hall := forall_mem_data_append (fun c => c ≠ ':') _ _
      (fun c hc' => (hhead c hc').2) hsuf
    exact hall _ hmem rfl
  · intro _ hc
    simp [register_desc.to_string, register_desc.to_string_sfx, register_desc.to_string_pfx,
      register_namer, hc]

theorem C7_suffix_bit_count_replaces_offset_witness :
    register_desc.to_string ⟨register_local ||| register_volatile, 7, 32, 8⟩ = "?t7:32"
      ∧ register_desc.to_string_sfx ⟨register_local ||| register_volatile, 7, 32, 8⟩ = ":32"
      ∧ '@' ∉ (register_desc.to_string ⟨register_local ||| register_volatile, 7, 32, 8⟩).data
      ∧ ':' ∉ (register_desc.to_string ⟨register_local ||| register_volatile, 7, 64, 8⟩).data
      ∧ register_desc.to_string ⟨register_local ||| register_volatile, 7, 32, 8⟩
          = register_desc.to_string ⟨register_local ||| register_volatile, 7, 32, 0⟩ :=
  ⟨(C7_suffix_bit_count_replaces_offset
      ⟨register_local ||| register_volatile, 7, 32, 8⟩).1.trans (by decide),
   (C7_suffix_bit_count_replaces_offset
      ⟨register_local ||| register_volatile, 7, 32, 8⟩).2.1.trans (by decide),
   (C7_suffix_bit_count_replaces_offset
      ⟨register_local ||| register_volatile, 7, 32, 8⟩).2.2.1 (by decide),
   (C7_suffix_bit_count_replaces_offset
      ⟨register_local ||| register_volatile, 7, 64, 8⟩).2.2.2.1 (by decide),
   (C7_suffix_bit_count_replaces_offset
      ⟨register_local ||| register_volatile, 7, 32, 8⟩).2.2.2.2 (by decide) (by decide)⟩

/-- C8: for every register descriptor, `to_string()` is
`prefix + "$flags" + suffix` when the flags-register bit is set; otherwise
`prefix + "$sp" + suffix` when the stack-pointer bit is set; otherwise
`prefix + "t" + decimal(local_id) + suffix` when the local bit is set; the
prefix being `"?"` if the volatile bit is set, followed by `"&&"` if the
read-only bit is set.  The flags register renders as `$flags`, the stack
pointer as `$sp`, and the local register 5 of 32 bits as `t5:32`. -/
theorem C8_to_string_special_names (r : register_desc) :
    (r.flags &&& register_flags ≠ 0 →
        r.to_string
          = (if r.flags &&& register_volatile ≠ 0 then "?" else "")
            ++ (if r.flags &&& register_readonly ≠ 0 then "&&" else "")
            ++ "$flags" ++ r.to_string_sfx)
      ∧ (r.flags &&& register_flags = 0 → r.flags &&& register_stack_pointer ≠ 0 →
        r.to_string
          = (if r.flags &&& register_volatile ≠ 0 then "?" else "")
            ++ (if r.flags &&& register_readonly ≠ 0 then "&&" else "")
            ++ "$sp" ++ r.to_string_sfx)
      ∧ (r.flags &&& register_flags = 0 → r.flags &&& register_stack_pointer = 0 →
          r.flags &&& register_local ≠ 0 →
        r.to_string
          = (if r.flags &&& register_volatile ≠ 0 then "?" else "")
            ++ (if r.flags &&& register_readonly ≠ 0 then "&&" else "")
            ++ "t" ++ toString r.local_id ++ r.to_string_sfx)
      ∧ REG_FLAGS.to_string = "$flags"
      ∧ REG_SP.to_string = "$sp"
      ∧ register_desc.to_string ⟨register_local, 5, 32, 0⟩ = "t5:32" := by
  have hpfx : r.to_string_pfx
      = (if r.flags &&& register_volatile ≠ 0 then "?" else "")
        ++ (if r.flags &&& register_readonly ≠ 0 then "&&" else "") := by
    by_cases hv : r.flags &&& register_volatile = 0 <;>
    by_cases hr : r.flags &&& register_readonly = 0 <;>
      simp [register_desc.to_string_pfx, hv, hr]
  refine ⟨?_, ?_, ?_, by decide, by decide, by decide⟩
  · intro hf
    rw [← hpfx]
    simp [register_desc.to_string, hf]
  · intro hf hs
    rw [← hpfx]
    simp [register_desc.to_string, hf, hs]
  · intro hf hs hl
    rw [← hpfx]
    simp [register_desc.to_string, hf, hs, hl]

theorem C8_to_string_special_names_witness :
    register_desc.to_string
        ⟨register_physical ||| register_flags ||| register_volatile ||| register_readonly,
          0, 16, 0⟩ = "?&&$flags:16"
      ∧ register_desc.to_string ⟨register_physical ||| register_stack_pointer, 0, 64, 8⟩
          = "$sp@8"
      ∧ register_desc.to_string ⟨register_local ||| register_volatile, 12, 64, 0⟩ = "?t12" :=
  ⟨((C8_to_string_special_names
        ⟨register_physical ||| register_flags ||| register_volatile ||| register_readonly,
          0, 16, 0⟩).1 (by decide)).trans (by decide),
   ((C8_to_string_special_names
        ⟨register_physical ||| register_stack_pointer, 0, 64, 8⟩).2.1
          (by decide) (by decide)).trans (by decide),
   ((C8_to_string_special_names
        ⟨register_local ||| register_volatile, 12, 64, 0⟩).2.2.1
          (by decide) (by decide) (by decide)).trans (by decide)⟩

/-! ### Comparison -/

/-- C9: register ordering is meant to be a strict total order consistent
with equality, so that exactly one of `a < b`, `a == b`, `b < a` holds.  For
`a = ( register_physical, 0, 64, 0 )` and `b = ( register_virtual, 1, 64, 0 )`,
two descriptors the constructor accepts, `operator<` answers true both for
`a < b` (the id is smaller) and for `b < a` (the flags are smaller). -/
theorem C9_op_lt_holds_both_ways :
    register_desc.op_lt ⟨register_physical, 0, 64, 0⟩ ⟨register_virtual, 1, 64, 0⟩ = true
      ∧ register_desc.op_lt ⟨register_virtual, 1, 64, 0⟩ ⟨register_physical, 0, 64, 0⟩ = true
      ∧ register_desc.op_eq ⟨register_physical, 0, 64, 0⟩ ⟨register_virtual, 1, 64, 0⟩ = false
      ∧ register_desc.construct register_physical 0 64 0
          = some ⟨register_physical, 0, 64, 0⟩
      ∧ register_desc.construct register_virtual 1 64 0
          = some ⟨register_virtual, 1, 64, 0⟩ := by
  decide

/-! ## Properties of instruction descriptors -/

/-- C10: construction of an instruction descriptor fails whenever the
number of operand slots exceeds `max_operand_count`, or the 1-based
size-operand index is greater than the operand count, or the 1-based
memory-operand index is greater than the operand count, or some
branch-target entry is zero or has magnitude greater than the operand
count. -/
theorem C10_construct_rejects_out_of_range (max_operand_count : Nat) (name : String)
    (access_types : List operand_access) (access_size_index : Int)
    (is_volatile : Bool) (symbolic_operator : math.operator_id)
    (branch_operands : List Int) (memory_operands : Int × Bool)
    (h : max_operand_count < access_types.length
      ∨ (access_types.length : Int) < access_size_index
      ∨ (access_types.length : Int) < memory_operands.1
      ∨ ∃ op ∈ branch_operands, op = 0 ∨ access_types.length < op.natAbs) :
    instruction_desc.construct max_operand_count name access_types access_size_index
      is_volatile symbolic_operator branch_operands memory_operands = none := by
  unfold instruction_desc.construct
  simp only []
  split_ifs with h1 h2 h3 h4
  · rcases h with h | h | h | ⟨op, hop, h⟩
    · omega
    · omega
    · omega
    · have := h4 op hop
      omega
  all_goals rfl

theorem C10_construct_rejects_out_of_range_witness :
    instruction_desc.construct 4 "str"
        [operand_access.read_reg, operand_access.read_imm, operand_access.read_any]
        4 false math.operator_id.invalid [] (1, true) = none
      ∧ instruction_desc.construct 4 "jmp" [operand_access.read_any]
        1 true math.operator_id.invalid [0] (0, false) = none :=
  ⟨C10_construct_rejects_out_of_range 4 "str"
      [operand_access.read_reg, operand_access.read_imm, operand_access.read_any]
      4 false math.operator_id.invalid [] (1, true) (Or.inr (Or.inl (by decide))),
   C10_construct_rejects_out_of_range 4 "jmp" [operand_access.read_any]
      1 true math.operator_id.invalid [0] (0, false)
      (Or.inr (Or.inr (Or.inr ⟨0, by decide, Or.inl rfl⟩)))⟩

/-- The loop that fills the two branch lists, with arbitrary lists to start
from: the positive entries go to the first list, decremented, the others to
the second, negated and decremented, each in input order. -/
theorem instruction_desc.process_branch_operands_eq (branch_operands : List Int)
    (vip rip : List Int) :
    instruction_desc.process_branch_operands branch_operands (vip, rip)
      = (vip ++ (branch_operands.filter (fun op => decide (op > 0))).map (fun op => op - 1),
         rip ++ (branch_operands.filter (fun op => !decide (op > 0))).map
            (fun op => -op - 1)) := by
  induction branch_operands generalizing vip rip with
  | nil => simp [instruction_desc.process_branch_operands]
  | cons op rest ih =>
    by_cases h : op > 0
    · simp [instruction_desc.process_branch_operands, h, ih]
    · simp [instruction_desc.process_branch_operands, h, ih]

/-- When the constructor of `instruction_desc` returns a descriptor: exactly
when the four assertions hold, and then the descriptor is the one the member
initialisers and the loop build. -/
theorem instruction_desc.construct_succeeds_iff (max_operand_count : Nat) (name : String)
    (access_types : List operand_access) (access_size_index : Int)
    (is_volatile : Bool) (symbolic_operator : math.operator_id)
    (branch_operands : List Int) (memory_operands : Int × Bool) (d : instruction_desc) :
    instruction_desc.construct max_operand_count name access_types access_size_index
        is_volatile symbolic_operator branch_operands memory_operands = some d ↔
      (access_types.length ≤ max_operand_count
        ∧ (access_size_index = 0 ∨ access_size_index.natAbs ≤ access_types.length)
        ∧ (memory_operands.1 = 0 ∨ memory_operands.1.natAbs ≤ access_types.length)
        ∧ (∀ op ∈ branch_operands, op ≠ 0 ∧ op.natAbs ≤ access_types.length))
      ∧ d = { name := name
              access_types := access_types
              access_size_index := access_size_index - 1
              is_volatile := is_volatile
              symbolic_operator := symbolic_operator
              branch_operands_vip :=
                (branch_operands.filter (fun op => decide (op > 0))).map (fun op => op - 1)
              branch_operands_rip :=
                (branch_operands.filter (fun op => !decide (op > 0))).map
                  (fun op => -op - 1)
              memory_operand_index := memory_operands.1 - 1
              memory_write := memory_operands.2 } := by
  unfold instruction_desc.construct
  simp only [instruction_desc.process_branch_operands_eq, List.nil_append]
  split_ifs with h1 h2 h3 h4
  · constructor
    · intro h
      exact ⟨⟨h1, h2, h3, h4⟩, (Option.some.inj h).symm⟩
    · rintro ⟨-, rfl⟩
      rfl
  · constructor
    · intro h
      exact absurd h (by simp)
    · rintro ⟨⟨-, -, -, h⟩, -⟩
      exact absurd h h4
  · constructor
    · intro h
      exact absurd h (by simp)
    · rintro ⟨⟨-, -, h, -⟩, -⟩
      exact absurd h h3
  · constructor
    · intro h
      exact absurd h (by simp)
    · rintro ⟨⟨-, h, -, -⟩, -⟩
      exact absurd h h2
  · constructor
    · intro h
      exact absurd h (by simp)
    · rintro ⟨⟨h, -, -, -⟩, -⟩
      exact absurd h h1

/-- C11: for every input with operand count at most `max_operand_count`,
size-operand index `s` in `0..count`, memory-operand index `m` in `0..count`
and every branch-target entry nonzero with magnitude at most `count`,
construction succeeds; name, access kinds, volatility and operator are
stored unchanged; the stored size operand is the absent value `-1` when
`s = 0` and `s - 1` otherwise; the stored memory operand is the absent value
`-1` when `m = 0` and `m - 1` otherwise, with the write flag as given; the
continues-virtual list is `op - 1` for each positive entry and the
exits-to-native list is `-op - 1` for each negative entry, in input order. -/
theorem C11_construct_normalises (max_operand_count : Nat) (name : String)
    (access_types : List operand_access) (access_size_index : Int)
    (is_volatile : Bool) (symbolic_operator : math.operator_id)
    (branch_operands : List Int) (memory_operands : Int × Bool)
    (hcount : access_types.length ≤ max_operand_count)
    (hs : 0 ≤ access_size_index ∧ access_size_index ≤ access_types.length)
    (hm : 0 ≤ memory_operands.1 ∧ memory_operands.1 ≤ access_types.length)
    (hbr : ∀ op ∈ branch_operands, op ≠ 0 ∧ op.natAbs ≤ access_types.length) :
    ∃ d : instruction_desc,
      instruction_desc.construct max_operand_count name access_types access_size_index
          is_volatile symbolic_operator branch_operands memory_operands = some d
        ∧ d.name = name ∧ d.access_types = access_types
        ∧ d.is_volatile = is_volatile ∧ d.symbolic_operator = symbolic_operator
        ∧ d.access_size_index = (if access_size_index = 0 then -1 else access_size_index - 1)
        ∧ d.memory_operand_index
            = (if memory_operands.1 = 0 then -1 else memory_operands.1 - 1)
        ∧ d.memory_write = memory_operands.2
        ∧ d.branch_operands_vip
            = (branch_operands.filter (fun op => decide (0 < op))).map (fun op => op - 1)
        ∧ d.branch_operands_rip
            = (branch_operands.filter (fun op => decide (op < 0))).map
                (fun op => -op - 1) := by
  have hfilter : branch_operands.filter (fun op => !decide (op > 0))
      = branch_operands.filter (fun op => decide (op < 0)) := by
    apply List.filter_congr
    intro op hop
    have := (hbr op hop).1
    by_cases h : op > 0
    · have h' : ¬ op < 0 := by omega
      simp [h, h']
    · have h' : op < 0 := by omega
      simp [h, h']
  refine ⟨_, (instruction_desc.construct_succeeds_iff _ _ _ _ _ _ _ _ _).2
    ⟨⟨hcount, ?_, ?_, hbr⟩, rfl⟩, rfl, rfl, rfl, rfl, ?_, ?_, rfl, rfl, ?_⟩
  · omega
  · omega
  · by_cases h : access_size_index = 0
    · simp [h]
    · simp [h]
  · by_cases h : memory_operands.1 = 0
    · simp [h]
    · simp [h]
  · simp only [hfilter]

theorem C11_construct_normalises_witness :
    ∃ d : instruction_desc,
      instruction_desc.construct 4 "ldd"
          [operand_access.write, operand_access.read_reg, operand_access.read_imm]
          1 false math.operator_id.invalid [2, -3, 1] (2, false) = some d
        ∧ d.access_size_index = 0 ∧ d.memory_operand_index = 1
        ∧ d.memory_write = false
        ∧ d.branch_operands_vip = [1, 0] ∧ d.branch_operands_rip = [2] := by
  obtain ⟨d, hd, -, -, -, -, hs, hm, hw, hv, hr⟩ :=
    C11_construct_normalises 4 "ldd"
      [operand_access.write, operand_access.read_reg, operand_access.read_imm]
      1 false math.operator_id.invalid [2, -3, 1] (2, false)
      (by decide) (by decide) (by decide) (by decide)
  exact ⟨d, hd, hs.trans (by decide), hm.trans (by decide), hw,
    hv.trans (by decide), hr.trans (by decide)⟩

/-- C12: every successfully constructed instruction descriptor is meant to
store a size-operand index and a memory-operand index that are each either
the absent value `-1` or a zero-based slot `i` with `0 ≤ i < operand_count`.
The constructor accepts the size-operand argument `-1` and the
memory-operand argument `-1` on a one-operand instruction (their `abs` is
within the operand count) and stores `-2` for both, which is neither the
absent value nor a slot. -/
theorem C12_construct_stores_negative_index :
    instruction_desc.construct 4 "vemit" [operand_access.read_imm]
        (-1) true math.operator_id.invalid [] (-1, false)
      = some
          { name := "vemit"
            access_types := [operand_access.read_imm]
            access_size_index := -2
            is_volatile := true
            symbolic_operator := math.operator_id.invalid
            branch_operands_vip := []
            branch_operands_rip := []
            memory_operand_index := -2
            memory_write := false }
      ∧ (-2 : Int) ≠ -1 ∧ ¬ ((0 : Int) ≤ -2) := by
  decide

/-! ## Properties of the instruction table -/

/-- The assertion on the operand count is the only place the constructor
reads `max_operand_count`. -/
theorem instruction_desc.construct_congr_max (m₁ m₂ : Nat) (name : String)
    (access_types : List operand_access) (access_size_index : Int)
    (is_volatile : Bool) (symbolic_operator : math.operator_id)
    (branch_operands : List Int) (memory_operands : Int × Bool)
    (h₁ : access_types.length ≤ m₁) (h₂ : access_types.length ≤ m₂) :
    instruction_desc.construct m₁ name access_types access_size_index
        is_volatile symbolic_operator branch_operands memory_operands
      = instruction_desc.construct m₂ name access_types access_size_index
        is_volatile symbolic_operator branch_operands memory_operands := by
  unfold instruction_desc.construct
  simp [h₁, h₂]

/-- No entry of the table has more than three operand slots, so the table
is the same for every `max_operand_count` from 3 on. -/
theorem ins_declared_eq (max_operand_count : Nat) (h : 3 ≤ max_operand_count) :
    ins_declared max_operand_count = ins_declared 3 := by
  have e : ∀ (name : String) (access_types : List operand_access) (s : Int) (v : Bool)
      (o : math.operator_id) (br : List Int) (mem : Int × Bool),
      access_types.length ≤ 3 →
      instruction_desc.construct max_operand_count name access_types s v o br mem
        = instruction_desc.construct 3 name access_types s v o br mem :=
    fun name access_types s v o br mem h3 =>
      instruction_desc.construct_congr_max _ _ name access_types s v o br mem
        (le_trans h3 h) h3
  simp only [ins_declared, ins.mov, ins.movr, ins.str, ins.ldd, ins.neg, ins.add, ins.sub, ins.mul, ins.imul, ins.mulhi, ins.imulhi, ins.div, ins.idiv, ins.rem, ins.irem, ins.bnot, ins.bshr, ins.bshl, ins.bxor, ins.bor, ins.band, ins.bror, ins.brol, ins.js, ins.jmp, ins.vexit, ins.vxcall, ins.nop, ins.upflg, ins.vsetcc, ins.vemit, ins.vpinr, ins.vpinw, ins.vpinrm, ins.vpinwm]
  repeat rw [e _ _ _ _ _ _ _ (by decide)]

theorem instruction_list_eq (max_operand_count : Nat) (h : 3 ≤ max_operand_count) :
    instruction_list max_operand_count = instruction_list 3 := by
  have e : ∀ (name : String) (access_types : List operand_access) (s : Int) (v : Bool)
      (o : math.operator_id) (br : List Int) (mem : Int × Bool),
      access_types.length ≤ 3 →
      instruction_desc.construct max_operand_count name access_types s v o br mem
        = instruction_desc.construct 3 name access_types s v o br mem :=
    fun name access_types s v o br mem h3 =>
      instruction_desc.construct_congr_max _ _ name access_types s v o br mem
        (le_trans h3 h) h3
  simp only [instruction_list, ins.mov, ins.movr, ins.str, ins.ldd, ins.neg, ins.add, ins.sub, ins.mul, ins.imul, ins.mulhi, ins.imulhi, ins.div, ins.idiv, ins.rem, ins.irem, ins.bnot, ins.bshr, ins.bshl, ins.bxor, ins.bor, ins.band, ins.bror, ins.brol, ins.js, ins.jmp, ins.vexit, ins.vxcall, ins.nop, ins.upflg, ins.vsetcc, ins.vemit, ins.vpinr, ins.vpinw, ins.vpinrm, ins.vpinwm]
  repeat rw [e _ _ _ _ _ _ _ (by decide)]

set_option maxRecDepth 100000 in
/-- C13: for every `max_operand_count` from 3 on, `instruction_list` has 35
entries, all of them constructed, whose mnemonic names are pairwise
distinct; and each of the 35 descriptors declared in namespace `ins` occurs
in `instruction_list` exactly once. -/
theorem C13_instruction_names_distinct (max_operand_count : Nat)
    (h : 3 ≤ max_operand_count) :
    (instruction_list max_operand_count).length = 35
      ∧ (∀ e ∈ instruction_list max_operand_count, e.isSome = true)
      ∧ ((instruction_list max_operand_count).map
          (fun e => e.map instruction_desc.name)).Nodup
      ∧ (ins_declared max_operand_count).length = 35
      ∧ ∀ e ∈ ins_declared max_operand_count,
          (instruction_list max_operand_count).count e = 1 := by
  rw [instruction_list_eq max_operand_count h, ins_declared_eq max_operand_count h]
  decide

theorem C13_instruction_names_distinct_witness :
    (instruction_list 4).length = 35
      ∧ ((instruction_list 4).map (fun e => e.map instruction_desc.name)).Nodup
      ∧ (ins_declared 4).length = 35
      ∧ (instruction_list 4).count (ins.upflg 4) = 1 :=
  ⟨(C13_instruction_names_distinct 4 (by decide)).1,
   (C13_instruction_names_distinct 4 (by decide)).2.2.1,
   (C13_instruction_names_distinct 4 (by decide)).2.2.2.1,
   (C13_instruction_names_distinct 4 (by decide)).2.2.2.2 (ins.upflg 4) (by decide)⟩

set_option maxRecDepth 100000 in
/-- C14: for every `max_operand_count` from 3 on, each of the 35 entries of
the table passes all assertions of the constructor (it is constructed), has
at most 3 operand slots, has size-operand and memory-operand authoring
indices (the stored index plus one) within `0..operand_count`, and has only
branch targets that are slots of the instruction (the authoring entries are
nonzero with magnitude at most `operand_count`). -/
theorem C14_table_entries_constructed (max_operand_count : Nat)
    (h : 3 ≤ max_operand_count) :
    ∀ e ∈ instruction_list max_operand_count, ∃ d : instruction_desc,
      e = some d ∧ d.operand_count ≤ 3
        ∧ (0 ≤ d.access_size_index + 1 ∧ d.access_size_index + 1 ≤ d.operand_count)
        ∧ (0 ≤ d.memory_operand_index + 1 ∧ d.memory_operand_index + 1 ≤ d.operand_count)
        ∧ (∀ i ∈ d.branch_operands_vip, 0 ≤ i ∧ i < d.operand_count)
        ∧ (∀ i ∈ d.branch_operands_rip, 0 ≤ i ∧ i < d.operand_count) := by
  rw [instruction_list_eq max_operand_count h]
  have hall : (instruction_list 3).all (fun e =>
      match e with
      | none => false
      | some d =>
        decide (d.operand_count ≤ 3
          ∧ (0 ≤ d.access_size_index + 1 ∧ d.access_size_index + 1 ≤ d.operand_count)
          ∧ (0 ≤ d.memory_operand_index + 1
              ∧ d.memory_operand_index + 1 ≤ d.operand_count)
          ∧ (∀ i ∈ d.branch_operands_vip, 0 ≤ i ∧ i < d.operand_count)
          ∧ (∀ i ∈ d.branch_operands_rip, 0 ≤ i ∧ i < d.operand_count))) = true := by
    decide
  intro e he
  have hthis := List.all_eq_true.1 hall e he
  cases e with
  | none => exact absurd hthis (by simp)
  | some d => exact ⟨d, rfl, of_decide_eq_true hthis⟩

theorem C14_table_entries_constructed_witness :
    ∃ d : instruction_desc,
      ins.str 4 = some d ∧ d.operand_count ≤ 3
        ∧ (0 ≤ d.access_size_index + 1 ∧ d.access_size_index + 1 ≤ d.operand_count)
        ∧ (0 ≤ d.memory_operand_index + 1 ∧ d.memory_operand_index + 1 ≤ d.operand_count)
        ∧ (∀ i ∈ d.branch_operands_vip, 0 ≤ i ∧ i < d.operand_count)
        ∧ (∀ i ∈ d.branch_operands_rip, 0 ≤ i ∧ i < d.operand_count) :=
  C14_table_entries_constructed 4 (by decide) (ins.str 4) (by decide)

/-- C15: the entry named `mov` (for every `max_operand_count` from 3 on) has
exactly the two operand slots write and read-either, its size operand is
the second operand (zero-based index 1), it is not volatile, carries no
symbolic operator, has empty continues-virtual and exits-to-native lists,
and has no memory access (the stored memory operand is the absent value
`-1`). -/
theorem C15_mov_entry (max_operand_count : Nat) (h : 3 ≤ max_operand_count) :
    ins.mov max_operand_count
      = some
          { name := "mov"
            access_types := [operand_access.write, operand_access.read_any]
            access_size_index := 1
            is_volatile := false
            symbolic_operator := math.operator_id.invalid
            branch_operands_vip := []
            branch_operands_rip := []
            memory_operand_index := -1
            memory_write := false } := by
  unfold ins.mov
  rw [instruction_desc.construct_congr_max max_operand_count 3 _ _ _ _ _ _ _
    (le_trans (by decide) h) (by decide)]
  decide

theorem C15_mov_entry_witness :
    (ins.mov 4).map instruction_desc.operand_count = some 2
      ∧ (ins.mov 4).map instruction_desc.access_size_index = some 1
      ∧ (ins.mov 4).map instruction_desc.memory_operand_index = some (-1) := by
  rw [C15_mov_entry 4 (by decide)]
  decide

/-- C16: the entry named `js` (for every `max_operand_count` from 3 on) has
the continues-virtual list `[0, 1]`, an empty exits-to-native list, and is
volatile. -/
theorem C16_js_entry (max_operand_count : Nat) (h : 3 ≤ max_operand_count) :
    ∃ d : instruction_desc, ins.js max_operand_count = some d
      ∧ d.name = "js" ∧ d.branch_operands_vip = [0, 1]
      ∧ d.branch_operands_rip = [] ∧ d.is_volatile = true := by
  unfold ins.js
  rw [instruction_desc.construct_congr_max max_operand_count 3 _ _ _ _ _ _ _
    (le_trans (by decide) h) (by decide)]
  exact ⟨_, rfl, by decide, by decide, by decide, by decide⟩

theorem C16_js_entry_witness :
    ∃ d : instruction_desc, ins.js 4 = some d
      ∧ d.name = "js" ∧ d.branch_operands_vip = [0, 1]
      ∧ d.branch_operands_rip = [] ∧ d.is_volatile = true :=
  C16_js_entry 4 (by decide)

/-- C17: the entry named `vexit` (for every `max_operand_count` from 3 on)
has the exits-to-native list `[0]` and an empty continues-virtual list,
whereas the entry named `jmp` has the continues-virtual list `[0]` and an
empty exits-to-native list. -/
theorem C17_vexit_and_jmp_entries (max_operand_count : Nat) (h : 3 ≤ max_operand_count) :
    (∃ d : instruction_desc, ins.vexit max_operand_count = some d
      ∧ d.name = "vexit" ∧ d.branch_operands_rip = [0] ∧ d.branch_operands_vip = [])
    ∧ (∃ d : instruction_desc, ins.jmp max_operand_count = some d
      ∧ d.name = "jmp" ∧ d.branch_operands_vip = [0] ∧ d.branch_operands_rip = []) := by
  unfold ins.vexit ins.jmp
  rw [instruction_desc.construct_congr_max max_operand_count 3 "vexit" _ _ _ _ _ _
    (le_trans (by decide) h) (by decide),
    instruction_desc.construct_congr_max max_operand_count 3 "jmp" _ _ _ _ _ _
    (le_trans (by decide) h) (by decide)]
  exact ⟨⟨_, rfl, by decide, by decide, by decide⟩, ⟨_, rfl, by decide, by decide, by decide⟩⟩

theorem C17_vexit_and_jmp_entries_witness :
    (∃ d : instruction_desc, ins.vexit 4 = some d
      ∧ d.name = "vexit" ∧ d.branch_operands_rip = [0] ∧ d.branch_operands_vip = [])
    ∧ (∃ d : instruction_desc, ins.jmp 4 = some d
      ∧ d.name = "jmp" ∧ d.branch_operands_vip = [0] ∧ d.branch_operands_rip = []) :=
  C17_vexit_and_jmp_entries 4 (by decide)

/-! ### The two branch lists -/

/-- C18, as stated, fails: the constructor accepts the branch-target list
`[1, -1]` on a one-operand instruction and stores the slot `0` in the
continues-virtual list and in the exits-to-native list. -/
theorem C18_branch_lists_can_share_an_index :
    instruction_desc.construct 4 "jmp" [operand_access.read_any]
        1 true math.operator_id.invalid [1, -1] (0, false)
      = some
          { name := "jmp"
            access_types := [operand_access.read_any]
            access_size_index := 0
            is_volatile := true
            symbolic_operator := math.operator_id.invalid
            branch_operands_vip := [0]
            branch_operands_rip := [0]
            memory_operand_index := -1
            memory_write := false }
      ∧ (0 : Int) ∈ [(0 : Int)] := by
  decide

/-- C18, amended: for every successfully constructed instruction descriptor
whose supplied branch-target list names no operand with both signs (never
`op` together with `-op`), the continues-virtual list and the
exits-to-native list are disjoint: no zero-based operand index occurs in
both. -/
theorem C18_branch_lists_disjoint (max_operand_count : Nat) (name : String)
    (access_types : List operand_access) (access_size_index : Int)
    (is_volatile : Bool) (symbolic_operator : math.operator_id)
    (branch_operands : List Int) (memory_operands : Int × Bool) (d : instruction_desc)
    (hd : instruction_desc.construct max_operand_count name access_types access_size_index
        is_volatile symbolic_operator branch_operands memory_operands = some d)
    (hsign : ∀ op ∈ branch_operands, -op ∉ branch_operands) :
    ∀ i : Int, i ∈ d.branch_operands_vip → i ∉ d.branch_operands_rip := by
  obtain ⟨-, rfl⟩ := (instruction_desc.construct_succeeds_iff _ _ _ _ _ _ _ _ _).1 hd
  intro i hv hr
  simp only [List.mem_map, List.mem_filter] at hv hr
  obtain ⟨a, ⟨ha, -⟩, rfl⟩ := hv
  obtain ⟨b, ⟨hb, -⟩, hab⟩ := hr
  have hba : b = -a := by omega
  exact hsign a ha (hba ▸ hb)

theorem C18_branch_lists_disjoint_witness :
    ∃ d : instruction_desc,
      instruction_desc.construct 4 "js"
          [operand_access.read_reg, operand_access.read_any, operand_access.read_any]
          2 true math.operator_id.invalid [2, -3] (0, false) = some d
        ∧ d.branch_operands_vip = [1] ∧ d.branch_operands_rip = [2]
        ∧ ∀ i : Int, i ∈ d.branch_operands_vip → i ∉ d.branch_operands_rip :=
  ⟨_, rfl, by decide, by decide,
    C18_branch_lists_disjoint 4 "js"
      [operand_access.read_reg, operand_access.read_any, operand_access.read_any]
      2 true math.operator_id.invalid [2, -3] (0, false) _ (by decide) (by decide)⟩

/-- C19: for every successfully constructed instruction descriptor, every
index stored in the continues-virtual list and in the exits-to-native list
is a zero-based slot (`0 ≤ i < operand_count`), the lengths of the two lists
sum to the length of the supplied branch-target list, and the descriptor is
a branch (one of the two lists is non-empty) if and only if the supplied
list is non-empty. -/
theorem C19_branch_lists_valid (max_operand_count : Nat) (name : String)
    (access_types : List operand_access) (access_size_index : Int)
    (is_volatile : Bool) (symbolic_operator : math.operator_id)
    (branch_operands : List Int) (memory_operands : Int × Bool) (d : instruction_desc)
    (hd : instruction_desc.construct max_operand_count name access_types access_size_index
        is_volatile symbolic_operator branch_operands memory_operands = some d) :
    (∀ i ∈ d.branch_operands_vip, 0 ≤ i ∧ i < d.operand_count)
      ∧ (∀ i ∈ d.branch_operands_rip, 0 ≤ i ∧ i < d.operand_count)
      ∧ d.branch_operands_vip.length + d.branch_operands_rip.length
          = branch_operands.length
      ∧ ((d.branch_operands_vip ≠ [] ∨ d.branch_operands_rip ≠ [])
          ↔ branch_operands ≠ []) := by
  obtain ⟨⟨-, -, -, hbr⟩, rfl⟩ :=
    (instruction_desc.construct_succeeds_iff _ _ _ _ _ _ _ _ _).1 hd
  have hlen : ((branch_operands.filter (fun op => decide (op > 0))).map
        (fun op => op - 1)).length
      + ((branch_operands.filter (fun op => !decide (op > 0))).map
        (fun op => -op - 1)).length = branch_operands.length := by
    simp only [List.length_map]
    clear hbr hd
    induction branch_operands with
    | nil => rfl
    | cons a l ih =>
      by_cases h : a > 0
      · simp only [List.filter_cons, h, decide_True, Bool.not_true, if_true,
          List.length_cons]
        simp only [Bool.false_eq_true, if_false]
        omega
      · simp only [List.filter_cons, h, decide_False, Bool.not_false, if_true,
          List.length_cons]
        simp only [Bool.false_eq_true, if_false]
        omega
  refine ⟨?_, ?_, hlen, ?_⟩
  · intro i hi
    simp only [List.mem_map, List.mem_filter, decide_eq_true_eq] at hi
    obtain ⟨a, ⟨ha, hpos⟩, rfl⟩ := hi
    have := (hbr a ha).2
    simp only [instruction_desc.operand_count]
    omega
  · intro i hi
    simp only [List.mem_map, List.mem_filter, Bool.not_eq_true', decide_eq_false_iff_not]
      at hi
    obtain ⟨a, ⟨ha, hneg⟩, rfl⟩ := hi
    have := hbr a ha
    simp only [instruction_desc.operand_count]
    omega
  · simp only [ne_eq, ← List.length_eq_zero] at hlen ⊢
    omega

theorem C19_branch_lists_valid_witness :
    ∃ d : instruction_desc,
      instruction_desc.construct 4 "js"
          [operand_access.read_reg, operand_access.read_any, operand_access.read_any]
          2 true math.operator_id.invalid [2, -3] (0, false) = some d
        ∧ (∀ i ∈ d.branch_operands_vip, 0 ≤ i ∧ i < d.operand_count)
        ∧ (∀ i ∈ d.branch_operands_rip, 0 ≤ i ∧ i < d.operand_count)
        ∧ d.branch_operands_vip.length + d.branch_operands_rip.length
            = [(2 : Int), -3].length
        ∧ ((d.branch_operands_vip ≠ [] ∨ d.branch_operands_rip ≠ [])
            ↔ [(2 : Int), -3] ≠ []) :=
  ⟨_, rfl,
    C19_branch_lists_valid 4 "js"
      [operand_access.read_reg, operand_access.read_any, operand_access.read_any]
      2 true math.operator_id.invalid [2, -3] (0, false) _ rfl⟩

/-- C20: in the entry `js` the branch targets are meant to be the operands
the instruction jumps to, OP2 and OP3 (zero-based slots 1 and 2, the two
register-or-immediate operands), and not the condition OP1 (slot 0, the
register-only operand).  The entry is built with the branch operands
`{ 1, 2 }`: its continues-virtual list is `[0, 1]`, so the condition slot 0
is a branch target and the slot 2 is not. -/
theorem C20_js_branch_targets_include_condition :
    (ins.js 4).map instruction_desc.access_types
        = some [operand_access.read_reg, operand_access.read_any, operand_access.read_any]
      ∧ (ins.js 4).map instruction_desc.branch_operands_vip = some [0, 1]
      ∧ (ins.js 4).map instruction_desc.branch_operands_rip = some []
      ∧ (0 : Int) ∈ [(0 : Int), 1] ∧ (2 : Int) ∉ [(0 : Int), 1] := by
  decide

/-! ### Operators, memory access and access kinds of the table -/

/-- C21: the entry `or` is meant to carry the bitwise-or operator
(`OP1 |= OP2`), an operator other than the one `xor` carries, no two
operator-carrying entries sharing an operator.  The entry `or` is built with
`op::bitwise_xor`, the operator of the entry `xor`. -/
theorem C21_or_carries_xor_operator :
    (ins.bor 4).map instruction_desc.name = some "or"
      ∧ (ins.bor 4).map instruction_desc.symbolic_operator
          = some math.operator_id.bitwise_xor
      ∧ (ins.bxor 4).map instruction_desc.name = some "xor"
      ∧ (ins.bxor 4).map instruction_desc.symbolic_operator
          = some math.operator_id.bitwise_xor
      ∧ math.operator_id.bitwise_xor ≠ math.operator_id.bitwise_or := by
  decide

/-- C22: the multiply entries are meant to carry operators of matching
signedness: `mul` the unsigned multiply, `mulhi` the unsigned high-part
multiply (`umultiply_high`), `imul` the signed multiply and `imulhi` the
signed high-part multiply (`multiply_high`).  The entries `mul` and `imul`
do; the entry `mulhi` is built with `op::multiply_high` and the entry
`imulhi` with `op::umultiply_high`. -/
theorem C22_high_multiply_operators_exchanged :
    (ins.mul 4).map instruction_desc.symbolic_operator = some math.operator_id.umultiply
      ∧ (ins.imul 4).map instruction_desc.symbolic_operator = some math.operator_id.multiply
      ∧ (ins.mulhi 4).map instruction_desc.symbolic_operator
          = some math.operator_id.multiply_high
      ∧ (ins.imulhi 4).map instruction_desc.symbolic_operator
          = some math.operator_id.umultiply_high
      ∧ math.operator_id.multiply_high ≠ math.operator_id.umultiply_high := by
  decide

set_option maxRecDepth 100000 in
/-- C23: for every `max_operand_count` from 3 on, the entries of the table
that access memory (whose stored memory operand is not the absent value
`-1`) are exactly four, with base operand and direction: `str` (operand 0,
write), `ldd` (operand 1, read), `vpinrm` (operand 0, read) and `vpinwm`
(operand 0, write); every other entry has no memory access. -/
theorem C23_memory_accessing_entries (max_operand_count : Nat)
    (h : 3 ≤ max_operand_count) :
    (instruction_list max_operand_count).filterMap
        (fun e => e.bind (fun d =>
          if d.memory_operand_index = -1 then none
          else some (d.name, d.memory_operand_index, d.memory_write)))
      = [("str", 0, true), ("ldd", 1, false), ("vpinrm", 0, false), ("vpinwm", 0, true)]
    ∧ ∀ e ∈ instruction_list max_operand_count, ∃ d : instruction_desc, e = some d
        ∧ (d.name ∉ ["str", "ldd", "vpinrm", "vpinwm"] → d.memory_operand_index = -1) := by
  rw [instruction_list_eq max_operand_count h]
  refine ⟨by decide, ?_⟩
  have hall : (instruction_list 3).all (fun e =>
      match e with
      | none => false
      | some d =>
        decide (d.name ∉ ["str", "ldd", "vpinrm", "vpinwm"]
          → d.memory_operand_index = -1)) = true := by
    decide
  intro e he
  have hthis := List.all_eq_true.1 hall e he
  cases e with
  | none => exact absurd hthis (by simp)
  | some d => exact ⟨d, rfl, of_decide_eq_true hthis⟩

theorem C23_memory_accessing_entries_witness :
    (instruction_list 4).filterMap
        (fun e => e.bind (fun d =>
          if d.memory_operand_index = -1 then none
          else some (d.name, d.memory_operand_index, d.memory_write)))
      = [("str", 0, true), ("ldd", 1, false), ("vpinrm", 0, false), ("vpinwm", 0, true)] :=
  (C23_memory_accessing_entries 4 (by decide)).1

set_option maxRecDepth 100000 in
/-- C24: for every `max_operand_count` from 3 on, the entries of the table
that carry a symbolic operator (one other than the value-initialised `{}`)
are exactly the 19 arithmetic and bitwise entries `neg`, `add`, `sub`,
`mul`, `imul`, `mulhi`, `imulhi`, `div`, `idiv`, `rem`, `irem`, `not`,
`shr`, `shl`, `xor`, `or`, `and`, `ror`, `rol`; the data-movement,
control-flow and special entries have the operator absent; and no entry
that is a branch or accesses memory carries an operator. -/
theorem C24_operator_carrying_entries (max_operand_count : Nat)
    (h : 3 ≤ max_operand_count) :
    (instruction_list max_operand_count).filterMap
        (fun e => e.bind (fun d =>
          if d.symbolic_operator = math.operator_id.invalid then none else some d.name))
      = ["neg", "add", "sub", "mul", "imul", "mulhi", "imulhi", "div", "idiv", "rem",
          "irem", "not", "shr", "shl", "xor", "or", "and", "ror", "rol"]
    ∧ (instruction_list max_operand_count).filterMap
        (fun e => e.bind (fun d =>
          if d.symbolic_operator = math.operator_id.invalid then some d.name else none))
      = ["mov", "movr", "str", "ldd", "upflg", "js", "jmp", "vexit", "vxcall", "nop",
          "vsetcc", "vemit", "vpinr", "vpinw", "vpinrm", "vpinwm"]
    ∧ ∀ e ∈ instruction_list max_operand_count, ∃ d : instruction_desc, e = some d
        ∧ ((d.branch_operands_vip ≠ [] ∨ d.branch_operands_rip ≠ []
              ∨ d.memory_operand_index ≠ -1)
            → d.symbolic_operator = math.operator_id.invalid) := by
  rw [instruction_list_eq max_operand_count h]
  refine ⟨by decide, by decide, ?_⟩
  have hall : (instruction_list 3).all (fun e =>
      match e with
      | none => false
      | some d =>
        decide ((d.branch_operands_vip ≠ [] ∨ d.branch_operands_rip ≠ []
              ∨ d.memory_operand_index ≠ -1)
            → d.symbolic_operator = math.operator_id.invalid)) = true := by
    decide
  intro e he
  have hthis := List.all_eq_true.1 hall e he
  cases e with
  | none => exact absurd hthis (by simp)
  | some d => exact ⟨d, rfl, of_decide_eq_true hthis⟩

theorem C24_operator_carrying_entries_witness :
    (instruction_list 4).filterMap
        (fun e => e.bind (fun d =>
          if d.symbolic_operator = math.operator_id.invalid then none else some d.name))
      = ["neg", "add", "sub", "mul", "imul", "mulhi", "imulhi", "div", "idiv", "rem",
          "irem", "not", "shr", "shl", "xor", "or", "and", "ror", "rol"] :=
  (C24_operator_carrying_entries 4 (by decide)).1

set_option maxRecDepth 100000 in
/-- C25: for every `max_operand_count` from 3 on and every entry of the
table: if the entry accesses memory, the slot at its memory-operand index
has the access kind read-register-only and the next slot exists and has the
access kind read-immediate-only; and the only slot whose access kind is
write or read-write is slot 0. -/
theorem C25_memory_base_and_written_slot (max_operand_count : Nat)
    (h : 3 ≤ max_operand_count) :
    ∀ e ∈ instruction_list max_operand_count, ∃ d : instruction_desc, e = some d
      ∧ (d.memory_operand_index ≠ -1 →
          d.access_types[d.memory_operand_index.toNat]? = some operand_access.read_reg
            ∧ d.access_types[d.memory_operand_index.toNat + 1]?
                = some operand_access.read_imm)
      ∧ (∀ i < d.operand_count,
          (d.access_types[i]? = some operand_access.write
              ∨ d.access_types[i]? = some operand_access.readwrite) → i = 0) := by
  rw [instruction_list_eq max_operand_count h]
  have hall : (instruction_list 3).all (fun e =>
      match e with
      | none => false
      | some d =>
        decide ((d.memory_operand_index ≠ -1 →
          d.access_types[d.memory_operand_index.toNat]? = some operand_access.read_reg
            ∧ d.access_types[d.memory_operand_index.toNat + 1]?
                = some operand_access.read_imm)
          ∧ (∀ i < d.operand_count,
              (d.access_types[i]? = some operand_access.write
                ∨ d.access_types[i]? = some operand_access.readwrite) → i = 0))) = true := by
    decide
  intro e he
  have hthis := List.all_eq_true.1 hall e he
  cases e with
  | none => exact absurd hthis (by simp)
  | some d => exact ⟨d, rfl, of_decide_eq_true hthis⟩

theorem C25_memory_base_and_written_slot_witness :
    ∃ d : instruction_desc, ins.ldd 4 = some d
      ∧ (d.memory_operand_index ≠ -1 →
          d.access_types[d.memory_operand_index.toNat]? = some operand_access.read_reg
            ∧ d.access_types[d.memory_operand_index.toNat + 1]?
                = some operand_access.read_imm)
      ∧ (∀ i < d.operand_count,
          (d.access_types[i]? = some operand_access.write
              ∨ d.access_types[i]? = some operand_access.readwrite) → i = 0) :=
  C25_memory_base_and_written_slot 4 (by decide) (ins.ldd 4) (by decide)

end vtil
